import Mathlib

/-!
# gossh: the known-hosts repair and the transfer engine

A shallow embedding of `ssh.go` (package `gossh`).  Go strings and file
contents are byte sequences, written here as lists of characters.  The
collaborators that are not part of the package (the operating system's file
primitives, `bufio.Scanner`, `strings`, `errors`, the goph client, the sftp
client) appear through their documented behaviour, each in a definition named
after the Go function it stands for.
-/

namespace Gossh

/-- Bytes of a Go string or of a file. -/
abbrev Bytes := List Char

/-! ## Library functions used by `deleteFileLines` -/

/-- The helper `dropCR` of `bufio`: drops one trailing carriage return. -/
def dropCR (data : Bytes) : Bytes :=
  if data.getLast? = some '\r' then data.dropLast else data

/-- The tokens `bufio.Scanner` yields with the default split function
`bufio.ScanLines`: `cur` is the part of the current line read so far.  A line
ends at a newline, one trailing carriage return is dropped, and a last line
without newline is a token when it is not empty. -/
def scanFrom : Bytes → Bytes → List Bytes
  | cur, [] => if cur = [] then [] else [dropCR cur]
  | cur, c :: rest =>
    if c = '\n' then dropCR cur :: scanFrom [] rest else scanFrom (cur ++ [c]) rest

/-- All tokens of `scanner.Scan()` / `scanner.Text()` over a file. -/
def scanLines (data : Bytes) : List Bytes := scanFrom [] data

/-- `strings.Join(elems, sep)`. -/
def stringsJoin : List Bytes → Bytes → Bytes
  | [], _ => []
  | [s], _ => s
  | s :: t :: rest, sep => s ++ sep ++ stringsJoin (t :: rest) sep

/-- An open file: the bytes on disk and the descriptor's I/O offset. -/
structure File where
  data : Bytes
  offset : Nat
deriving DecidableEq, Repr

/-- `file.Truncate(size)` for `size = 0`: the size changes, the offset does not. -/
def File.truncate0 (f : File) : File := { f with data := [] }

/-- `file.Seek(0, 0)`: the offset goes back to the start. -/
def File.seekStart (f : File) : File := { f with offset := 0 }

/-- `file.WriteString(s)`: writes at the offset, over what is there; a gap
between the end of the file and the offset reads as zero bytes. -/
def File.writeString (f : File) (s : Bytes) : File :=
  let padded := f.data ++ List.replicate (f.offset - f.data.length) '\x00'
  { data := padded.take f.offset ++ s ++ padded.drop (f.offset + s.length),
    offset := f.offset + s.length }

/-- Which of the file primitives fail during one call.  `scanErr` is
`scanner.Err() != nil` (a read failure, or `bufio.ErrTooLong` for a line over
the scanner's token limit); `writeErr = some n` is a write that fails after
`n` bytes; `addErr` is `goph.AddKnownHost` failing. -/
structure Faults where
  openErr : Bool
  scanErr : Bool
  truncateErr : Bool
  seekErr : Bool
  writeErr : Option Nat
  addErr : Bool
deriving DecidableEq, Repr

/-- No primitive fails. -/
def Faults.none : Faults :=
  { openErr := false, scanErr := false, truncateErr := false, seekErr := false,
    writeErr := Option.none, addErr := false }

/-- The errors `deleteFileLines` builds with `fmt.Errorf`. -/
inductive DelErr
  | openFailed
  | readFailed
  | truncateFailed
  | seekFailed
  | writeFailed
deriving DecidableEq, Repr

/-! ## `contains` and `deleteFileLines` (ssh.go 419-466) -/

/-- `contains(slice, value)`. -/
def contains : List Int → Int → Bool
  | [], _ => false
  | item :: rest, value => if item = value then true else contains rest value

/-- The loop `for scanner.Scan() { ... lineNumber++ }`: `lineNumber` is the
counter, `linesToKeep` the slice built so far.  The counter is a Go `int`; a
file has fewer than 2^63 lines, so it never wraps. -/
def scanLoop (linesToDelete : List Int) : List Bytes → Int → List Bytes → List Bytes
  | [], _, linesToKeep => linesToKeep
  | text :: more, lineNumber, linesToKeep =>
    scanLoop linesToDelete more (lineNumber + 1)
      (if !contains linesToDelete lineNumber then linesToKeep ++ [text] else linesToKeep)

/-- `deleteFileLines(filename, linesToDelete)`: `disk` is the content of the
file named `filename`; the result is the returned error (`none` for `nil`) and
the content of the file afterwards. -/
def deleteFileLines (io : Faults) (disk : Bytes) (linesToDelete : List Int) :
    Option DelErr × Bytes :=
  if io.openErr then (some DelErr.openFailed, disk) else
  let file : File := { data := disk, offset := 0 }
  let linesToKeep := scanLoop linesToDelete (scanLines file.data) 1 []
  if io.scanErr then (some DelErr.readFailed, file.data) else
  let file : File := { file with offset := file.data.length }
  let newContent := stringsJoin linesToKeep ['\n']
  if io.truncateErr then (some DelErr.truncateFailed, file.data) else
  let file := file.truncate0
  if io.seekErr then (some DelErr.seekFailed, file.data) else
  let file := file.seekStart
  match io.writeErr with
  | some n => (some DelErr.writeFailed, (file.writeString (newContent.take n)).data)
  | Option.none => (Option.none, (file.writeString newContent).data)

/-! ## Lines of a file, as the claims number them -/

/-- The lines of a newline-delimited text, byte for byte: a line ends at a
newline, and a last line without newline counts when it is not empty. -/
def linesFrom : Bytes → Bytes → List Bytes
  | cur, [] => if cur = [] then [] else [cur]
  | cur, c :: rest =>
    if c = '\n' then cur :: linesFrom [] rest else linesFrom (cur ++ [c]) rest

/-- The lines of a file, numbered from 1 in file order. -/
def fileLines (data : Bytes) : List Bytes := linesFrom [] data

/-- The lines whose position, counted from `start`, is not in `selected`. -/
def keptFrom (selected : List Int) : Nat → List Bytes → List Bytes
  | _, [] => []
  | pos, l :: rest =>
    if ((pos : Int)) ∈ selected then keptFrom selected (pos + 1) rest
    else l :: keptFrom selected (pos + 1) rest

/-- The lines whose 1-based position is not in `selected`, in order. -/
def keptLines (lines : List Bytes) (selected : List Int) : List Bytes :=
  keptFrom selected 1 lines

/-! ## The host-key callback of `connect` (ssh.go 347-384) -/

/-- One entry of `knownhosts.KeyError.Want`: the line of the known-hosts file
that holds a key for the host.  (The key and the file name are not used by
the callback.) -/
structure KnownKey where
  line : Int
deriving DecidableEq, Repr

/-- The Go `error` values that reach the callback or leave it. -/
inductive Error
  | keyError (want : List KnownKey)
  | revokedError (revoked : KnownKey)
  | lookupFailed
  | deleteFailed (e : DelErr)
  | addFailed
  | withStack (e : Error)
  | withMessage (e : Error) (msg : String)
deriving DecidableEq, Repr

/-- What `errors.As(err, target)` does: it panics when `target` is a nil
pointer, and otherwise reports whether the chain of `err` holds an error of
the target's type, storing it in the target. -/
inductive AsResult (α : Type)
  | panics
  | found (target : α)
  | notFound
deriving DecidableEq, Repr

/-- The first `*knownhosts.KeyError` in the chain of `err`. -/
def findKeyError : Error → Option (List KnownKey)
  | Error.keyError want => some want
  | Error.withStack e => findKeyError e
  | Error.withMessage e _ => findKeyError e
  | _ => none

/-- The first `*knownhosts.RevokedError` in the chain of `err`. -/
def findRevokedError : Error → Option KnownKey
  | Error.revokedError revoked => some revoked
  | Error.withStack e => findRevokedError e
  | Error.withMessage e _ => findRevokedError e
  | _ => none

/-- `errors.As(err, target)` for a non-nil `err`; `targetIsNil` says whether
the pointer passed as target is nil. -/
def errorsAs {α : Type} (find : Error → Option α) (err : Error) (targetIsNil : Bool) :
    AsResult α :=
  if targetIsNil then AsResult.panics
  else match find err with
    | some t => AsResult.found t
    | none => AsResult.notFound

/-- How a call of the callback ends: it returns an error value (`none` is
`nil`, the key is accepted) or it panics. -/
inductive Outcome
  | returned (err : Option Error)
  | panicked
deriving DecidableEq, Repr

/-- The calls that change the known-hosts file. -/
inductive StoreOp
  | deleteLines (lines : List Int)
  | addHost (record : Bytes)
deriving DecidableEq, Repr

/-- `goph.AddKnownHost`: opens the file for appending and writes the record's
line followed by a newline. -/
def addKnownHost (io : Faults) (record : Bytes) (store : Bytes) : Option Error × Bytes :=
  if io.addErr then (some Error.addFailed, store) else (none, store ++ record ++ ['\n'])

/-- Where control is after the block `if hostFound && err != nil { ... }`:
the callback has ended, or it goes on with the current value of the variable
`err`. -/
inductive Flow
  | ended (r : Outcome)
  | goesOn (err : Option Error)
deriving DecidableEq, Repr

/-- The loop `for _, want := range keyErr.Want { lines = append(lines, want.Line) }`. -/
def wantLines : List KnownKey → List Int → List Int
  | [], lines => lines
  | want :: more, lines => wantLines more (lines ++ [want.line])

/-- Lines 349-373.  `hostFound` and `err` are the results of
`goph.CheckKnownHost`; `store` is the content of the known-hosts file.  The
statement `err = deleteFileLines(...)` assigns the variable `err` of the
callback, and `errors.As(err, revokedErr)` passes the nil pointer `revokedErr`
itself, not its address. -/
def repairBlock (io : Faults) (hostFound : Bool) (err : Option Error) (store : Bytes) :
    Flow × Bytes × List StoreOp :=
  match hostFound, err with
  | true, some e =>
    match errorsAs findKeyError e false with
    | AsResult.panics => (Flow.ended Outcome.panicked, store, [])
    | AsResult.found want =>
      if want.length = 0 then
        (Flow.ended (Outcome.returned (some (Error.withStack e))), store, [])
      else
        let lines := wantLines want []
        match deleteFileLines io store lines with
        | (some d, store1) =>
          (Flow.ended (Outcome.returned (some (Error.withStack (Error.deleteFailed d)))),
            store1, [StoreOp.deleteLines lines])
        | (none, store1) => (Flow.goesOn none, store1, [StoreOp.deleteLines lines])
    | AsResult.notFound =>
      match errorsAs findRevokedError e true with
      | AsResult.panics => (Flow.ended Outcome.panicked, store, [])
      | AsResult.found revokedErr =>
        let lines := [revokedErr.line]
        match deleteFileLines io store lines with
        | (some d, store1) =>
          (Flow.ended (Outcome.returned (some (Error.withStack (Error.deleteFailed d)))),
            store1, [StoreOp.deleteLines lines])
        | (none, store1) => (Flow.goesOn none, store1, [StoreOp.deleteLines lines])
      | AsResult.notFound =>
        (Flow.ended (Outcome.returned (some (Error.withMessage e "check knownhost error"))),
          store, [])
  | _, _ => (Flow.goesOn err, store, [])

/-- The `Callback` of `connect`: `record` is the line `goph.AddKnownHost`
writes for the presented key.  The result is how the callback ends, the
content of the known-hosts file afterwards, and the calls that changed it. -/
def callback (io : Faults) (hostFound : Bool) (err : Option Error) (record : Bytes)
    (store : Bytes) : Outcome × Bytes × List StoreOp :=
  match repairBlock io hostFound err store with
  | (Flow.ended r, store1, ops) => (r, store1, ops)
  | (Flow.goesOn err1, store1, ops) =>
    if hostFound && err1.isNone then (Outcome.returned none, store1, ops)
    else
      match addKnownHost io record store1 with
      | (some e, store2) =>
        (Outcome.returned (some (Error.withStack e)), store2, ops ++ [StoreOp.addHost record])
      | (none, store2) => (Outcome.returned none, store2, ops ++ [StoreOp.addHost record])

/-! ## `Connect` and `connect` (ssh.go 24-42, 328-417) -/

/-- The session value `SSH`; `client` is `nil` until the handshake is done. -/
structure SSH where
  host : Bytes
  port : Nat
  username : Bytes
  password : Bytes
  client : Bool
deriving DecidableEq, Repr

/-- What the collaborators of `connect` answer: `dial` is
`net.DialTimeout("tcp", address, 2s)` succeeding, `knownFile` the result of
`getKnownFile`, `handshake` that of `goph.NewConn` (which runs the host-key
callback). -/
structure ConnEnv where
  dial : Bytes → Bool
  knownFile : Option Bytes
  handshake : Bool

/-- The steps of `connect` that were started, in order. -/
inductive ConnStep
  | probe (address : Bytes)
  | knownFile
  | newConn (knownFile : Bytes)
deriving DecidableEq, Repr

/-- The errors of `connect`. -/
inductive ConnErr
  | unreachable (address : Bytes)
  | knownFile
  | handshake
  | withStack (e : ConnErr)
deriving DecidableEq, Repr

/-- `isReachableAddr(address)`. -/
def isReachableAddr (env : ConnEnv) (address : Bytes) : Bool × Option ConnErr :=
  if env.dial address then (true, none) else (false, some (ConnErr.unreachable address))

/-- `fmt.Sprintf("%s:%d", host, port)`. -/
def formatAddress (host : Bytes) (port : Nat) : Bytes :=
  host ++ [':'] ++ (Nat.toDigits 10 port)

/-- `(s *SSH).connect()`: the error, the session with its client set on
success, and the steps started. -/
def connect (env : ConnEnv) (s : SSH) : Option ConnErr × SSH × List ConnStep :=
  let address := formatAddress s.host s.port
  match isReachableAddr env address with
  | (_, some err) => (some (ConnErr.withStack err), s, [ConnStep.probe address])
  | (_, none) =>
    match env.knownFile with
    | none =>
      (some (ConnErr.withStack ConnErr.knownFile), s, [ConnStep.probe address, ConnStep.knownFile])
    | some knownFile =>
      if env.handshake then
        (none, { s with client := true },
          [ConnStep.probe address, ConnStep.knownFile, ConnStep.newConn knownFile])
      else
        (some (ConnErr.withStack ConnErr.handshake), s,
          [ConnStep.probe address, ConnStep.knownFile, ConnStep.newConn knownFile])

/-- `Connect(host, port, username, password)`: the session (`none` for `nil`),
the error, and the steps started. -/
def Connect (env : ConnEnv) (host : Bytes) (port : Nat) (username password : Bytes) :
    Option SSH × Option ConnErr × List ConnStep :=
  let port := if port = 0 then 22 else port
  let s : SSH :=
    { host := host, port := port, username := username, password := password, client := false }
  match connect env s with
  | (some err, _, steps) => (none, some (ConnErr.withStack err), steps)
  | (none, s1, steps) => (some s1, none, steps)

/-! ## Path names (`strings`, `path/filepath`) -/

/-- `strings.HasSuffix(s, suffix)`. -/
def stringsHasSuffix (s suffix : Bytes) : Bool :=
  decide (suffix.length ≤ s.length) && (s.drop (s.length - suffix.length) == suffix)

/-- `strings.TrimSuffix(s, suffix)`. -/
def stringsTrimSuffix (s suffix : Bytes) : Bytes :=
  if stringsHasSuffix s suffix then s.take (s.length - suffix.length) else s

/-- `strings.HasPrefix(s, p)`. -/
def stringsHasPrefix (s p : Bytes) : Bool :=
  decide (p.length ≤ s.length) && (s.take p.length == p)

/-- `strings.Replace(s, old, new, 1)` for a one-byte `old`: the first
occurrence is replaced. -/
def stringsReplaceFirst (old : Char) (new : Bytes) : Bytes → Bytes
  | [] => []
  | c :: rest => if c = old then new ++ rest else c :: stringsReplaceFirst old new rest

/-- `bytes.TrimRight(out, "\n")`. -/
def trimRightNewlines (out : Bytes) : Bytes :=
  (out.reverse.dropWhile (fun c => c == '\n')).reverse

/-- `filepath.Join(dir, name)` for a non-empty `name`: empty elements are
ignored and the rest joined with a slash.  (`Join` also cleans the result,
which does not change what the name resolves to.) -/
def filepathJoin (dir name : Bytes) : Bytes :=
  if dir = [] then name else dir ++ ['/'] ++ name

/-- `filepath.Base(path)`. -/
def filepathBase (path : Bytes) : Bytes :=
  if path = [] then ['.']
  else
    let stripped := path.reverse.dropWhile (fun c => c == '/')
    if stripped = [] then ['/'] else (stripped.takeWhile (fun c => c != '/')).reverse

/-- A resolved path: the names from the root down. -/
abbrev Path := List Bytes

/-- The elements of a path name between slashes. -/
def splitSlash : Bytes → Bytes → List Bytes
  | cur, [] => [cur]
  | cur, c :: rest => if c = '/' then cur :: splitSlash [] rest else splitSlash (cur ++ [c]) rest

/-- Walks the elements of a path name from the directory `here`. -/
def walkPath : Path → List Bytes → Path
  | here, [] => here
  | here, elem :: more =>
    if elem = [] ∨ elem = ['.'] then walkPath here more
    else if elem = ['.', '.'] then walkPath here.dropLast more
    else walkPath (here ++ [elem]) more

/-- The path a name stands for: absolute when it starts with a slash,
otherwise relative to the working directory. -/
def resolve (cwd : Path) (name : Bytes) : Path :=
  walkPath (if name.head? = some '/' then [] else cwd) (splitSlash [] name)

/-! ## The remote file system, as the sftp client shows it -/

/-- A node of the remote file system. -/
inductive RNode
  | dir
  | file (content : Bytes) (mode : Nat)
deriving DecidableEq, Repr

/-- The remote file system: the working directory of the sftp session and the
nodes below the root (the root itself is always a directory). -/
structure RemoteFS where
  cwd : Path
  nodes : List (Path × RNode)
deriving DecidableEq, Repr

/-- The node stored at a resolved path. -/
def nodeAt : List (Path × RNode) → Path → Option RNode
  | [], _ => none
  | (q, n) :: rest, p => if q = p then some n else nodeAt rest p

/-- Stores a node at a resolved path. -/
def putNode : List (Path × RNode) → Path → RNode → List (Path × RNode)
  | [], p, n => [(p, n)]
  | (q, m) :: rest, p, n => if q = p then (q, n) :: rest else (q, m) :: putNode rest p n

/-- The node at a resolved path, the root included. -/
def RemoteFS.lookup (fs : RemoteFS) (p : Path) : Option RNode :=
  if p = [] then some RNode.dir else nodeAt fs.nodes p

/-- `sftpClient.Stat(path)`: `none` is the error for a path that does not exist. -/
def RemoteFS.stat (fs : RemoteFS) (path : Bytes) : Option RNode :=
  fs.lookup (resolve fs.cwd path)

/-- The directories `MkdirAll` goes through, from `here` down: one that
exists is kept, a plain file in the way is an error, a missing one is made. -/
def mkdirFrom : List (Path × RNode) → Path → List Bytes → Option (List (Path × RNode))
  | nodes, _, [] => some nodes
  | nodes, here, elem :: more =>
    match nodeAt nodes (here ++ [elem]) with
    | some (RNode.file _ _) => none
    | some RNode.dir => mkdirFrom nodes (here ++ [elem]) more
    | none => mkdirFrom (nodes ++ [(here ++ [elem], RNode.dir)]) (here ++ [elem]) more

/-- `sftpClient.MkdirAll(path)`. -/
def RemoteFS.mkdirAll (fs : RemoteFS) (path : Bytes) : Option RemoteFS :=
  match mkdirFrom fs.nodes [] (resolve fs.cwd path) with
  | some nodes => some { fs with nodes := nodes }
  | none => none

/-- The mode of a file the server creates. -/
def defaultMode : Nat := 0o644

/-- `sftpClient.Create(path)`: opens with create and truncate.  It fails when
the parent is not an existing directory or the path is a directory. -/
def RemoteFS.create (fs : RemoteFS) (path : Bytes) : Option RemoteFS :=
  let p := resolve fs.cwd path
  if p = [] then none
  else
    match fs.lookup p.dropLast with
    | some RNode.dir =>
      match nodeAt fs.nodes p with
      | some RNode.dir => none
      | some (RNode.file _ mode) => some { fs with nodes := putNode fs.nodes p (RNode.file [] mode) }
      | none => some { fs with nodes := putNode fs.nodes p (RNode.file [] defaultMode) }
    | _ => none

/-- `remoteFile.Chmod(mode)` on the file created at `path`. -/
def RemoteFS.chmod (fs : RemoteFS) (path : Bytes) (mode : Nat) : Option RemoteFS :=
  match nodeAt fs.nodes (resolve fs.cwd path) with
  | some (RNode.file content _) =>
    some { fs with nodes := putNode fs.nodes (resolve fs.cwd path) (RNode.file content mode) }
  | _ => none

/-- `io.Copy(remoteFile, localFile)` into the file created at `path`. -/
def RemoteFS.copy (fs : RemoteFS) (path : Bytes) (content : Bytes) : Option RemoteFS :=
  match nodeAt fs.nodes (resolve fs.cwd path) with
  | some (RNode.file _ mode) =>
    some { fs with nodes := putNode fs.nodes (resolve fs.cwd path) (RNode.file content mode) }
  | _ => none

/-- The calls `Upload` makes that write on the remote side. -/
inductive RemoteCall
  | mkdirAll (path : Bytes)
  | create (path : Bytes)
  | chmod (path : Bytes) (mode : Nat)
  | copy (path : Bytes) (content : Bytes)
deriving DecidableEq, Repr

/-! ## The local file system -/

mutual
/-- A node of the local tree: a regular file or a directory. -/
inductive LNode
  | file (content : Bytes) (mode : Nat)
  | dir (entries : LEntries)
/-- The entries of a local directory, in the order `os.ReadDir` lists them. -/
inductive LEntries
  | nil
  | cons (name : Bytes) (node : LNode) (rest : LEntries)
end

/-- The entry of a directory with a given name. -/
def LEntries.get : LEntries → Bytes → Option LNode
  | LEntries.nil, _ => none
  | LEntries.cons n node rest, name => if n = name then some node else rest.get name

/-- The node at a resolved path below a node. -/
def LNode.find : LNode → Path → Option LNode
  | node, [] => some node
  | LNode.dir entries, elem :: more =>
    match entries.get elem with
    | some n => n.find more
    | none => none
  | LNode.file _ _, _ :: _ => none

/-- The local file system: the working directory and the tree at the root. -/
structure LocalFS where
  cwd : Path
  root : LNode

/-- `os.Stat(path)` on the local side. -/
def LocalFS.stat (fs : LocalFS) (path : Bytes) : Option LNode :=
  fs.root.find (resolve fs.cwd path)

/-! ## `Upload` and its helpers (ssh.go 86-92, 197-310) -/

/-- What the session answers during a transfer: the output of the command
`echo $HOME` (`none` when running it fails) and whether `Client.NewSftp()`
succeeds. -/
structure Session where
  echoHome : Option Bytes
  sftpOk : Bool
deriving DecidableEq, Repr

/-- The errors of `Upload`, each with the path its message names. -/
inductive TransferErr
  | localNotFound (localPath : Bytes)
  | expandTilde
  | sftpClient
  | remoteIsFile (remoteDir : Bytes)
  | mkdirRemote (remote : Bytes)
  | readLocalDir (localDir : Bytes)
  | createRemote (remotePath : Bytes)
  | chmodRemote
  | copyRemote
  | uploadDirectory (localPath : Bytes) (cause : TransferErr)
  | uploadFile (localPath : Bytes) (cause : TransferErr)
deriving DecidableEq, Repr

/-- `(s *SSH).UserHomeDir()`. -/
def UserHomeDir (s : Session) : Option Bytes :=
  match s.echoHome with
  | some out => some (trimRightNewlines out)
  | none => none

/-- `(s *SSH).expandTilde(path)`: the expanded path and the error. -/
def expandTilde (s : Session) (path : Bytes) : Bytes × Option TransferErr :=
  if !stringsHasPrefix path ['~'] then (path, none)
  else
    match UserHomeDir s with
    | none => ([], some TransferErr.expandTilde)
    | some homeDir => (stringsReplaceFirst '~' homeDir path, none)

/-- `(s *SSH).isFile(sftpClient, path)`. -/
def isFile (fs : RemoteFS) (path : Bytes) : Bool :=
  match fs.stat path with
  | some RNode.dir => false
  | some (RNode.file _ _) => true
  | none => false

/-- `(s *SSH).pathExists(sftpClient, path)`. -/
def pathExists (fs : RemoteFS) (path : Bytes) : Bool :=
  match fs.stat path with
  | some _ => true
  | none => false

/-- The result of a transfer step: the error (`none` for `nil`), the remote
file system afterwards, and the writing calls made so far. -/
abbrev Step := Option TransferErr × RemoteFS × List RemoteCall

/-- `(s *SSH).uploadFile(sftpClient, localPath, remotePath)` for the local
regular file with the given content and mode. -/
def uploadFile (fs : RemoteFS) (calls : List RemoteCall) (content : Bytes) (mode : Nat)
    (remotePath : Bytes) : Step :=
  match fs.create remotePath with
  | none => (some (TransferErr.createRemote remotePath), fs, calls ++ [RemoteCall.create remotePath])
  | some fs1 =>
    match fs1.chmod remotePath mode with
    | none =>
      (some TransferErr.chmodRemote, fs1,
        calls ++ [RemoteCall.create remotePath, RemoteCall.chmod remotePath mode])
    | some fs2 =>
      match fs2.copy remotePath content with
      | none =>
        (some TransferErr.copyRemote, fs2,
          calls ++ [RemoteCall.create remotePath, RemoteCall.chmod remotePath mode,
            RemoteCall.copy remotePath content])
      | some fs3 =>
        (none, fs3,
          calls ++ [RemoteCall.create remotePath, RemoteCall.chmod remotePath mode,
            RemoteCall.copy remotePath content])

mutual
/-- The body of the loop of `uploadDirectory` for one entry. -/
def uploadEntry (fs : RemoteFS) (calls : List RemoteCall) (localDir remoteDir name : Bytes) :
    LNode → Step
  | LNode.dir entries =>
    match fs.mkdirAll (filepathJoin remoteDir name) with
    | none =>
      (some (TransferErr.mkdirRemote (filepathJoin remoteDir name)), fs,
        calls ++ [RemoteCall.mkdirAll (filepathJoin remoteDir name)])
    | some fs1 =>
      match uploadDirectory fs1 (calls ++ [RemoteCall.mkdirAll (filepathJoin remoteDir name)])
          (filepathJoin localDir name) (filepathJoin remoteDir name) entries with
      | (some err, fs2, calls2) =>
        (some (TransferErr.uploadDirectory (filepathJoin localDir name) err), fs2, calls2)
      | (none, fs2, calls2) => (none, fs2, calls2)
  | LNode.file content mode =>
    match uploadFile fs calls content mode (filepathJoin remoteDir name) with
    | (some err, fs2, calls2) =>
      (some (TransferErr.uploadFile (filepathJoin localDir name) err), fs2, calls2)
    | (none, fs2, calls2) => (none, fs2, calls2)
/-- `(s *SSH).uploadDirectory(sftpClient, localDir, remoteDir)` over the
entries `os.ReadDir(localDir)` lists. -/
def uploadDirectory (fs : RemoteFS) (calls : List RemoteCall) (localDir remoteDir : Bytes) :
    LEntries → Step
  | LEntries.nil => (none, fs, calls)
  | LEntries.cons name node rest =>
    match uploadEntry fs calls localDir remoteDir name node with
    | (some err, fs1, calls1) => (some err, fs1, calls1)
    | (none, fs1, calls1) => uploadDirectory fs1 calls1 localDir remoteDir rest
end

/-- The remote path of `Upload` and `Download` after the trimming step
`strings.TrimSuffix(remoteDir, "/")`. -/
def trimRemote (remotePath : Bytes) : Bytes := stringsTrimSuffix remotePath ['/']

/-- `fsutil.PathExists(path)` on the local side. -/
def fsutilPathExists (lfs : LocalFS) (path : Bytes) : Bool :=
  if path = [] then false else (lfs.stat path).isSome

/-- `fsutil.IsFile(path)` on the local side. -/
def fsutilIsFile (lfs : LocalFS) (path : Bytes) : Bool :=
  if path = [] then false
  else
    match lfs.stat path with
    | some (LNode.file _ _) => true
    | _ => false

/-- `(s *SSH).Upload(localPath, remoteDir)`.  The logging sink `s.Log` is
taken to be set, as the callers of the package do after `Connect`. -/
def Upload (s : Session) (lfs : LocalFS) (fs : RemoteFS) (localPath remoteDir : Bytes) : Step :=
  if !fsutilPathExists lfs localPath then (some (TransferErr.localNotFound localPath), fs, [])
  else
    match expandTilde s (trimRemote remoteDir) with
    | (_, some err) => (some err, fs, [])
    | (remoteDir1, none) =>
      if !s.sftpOk then (some TransferErr.sftpClient, fs, [])
      else if isFile fs remoteDir1 then (some (TransferErr.remoteIsFile remoteDir1), fs, [])
      else if fsutilIsFile lfs localPath then
        match fs.mkdirAll remoteDir1 with
        | none => (some (TransferErr.mkdirRemote remoteDir1), fs, [RemoteCall.mkdirAll remoteDir1])
        | some fs1 =>
          match lfs.stat localPath with
          | some (LNode.file content mode) =>
            uploadFile fs1 [RemoteCall.mkdirAll remoteDir1] content mode
              (filepathJoin remoteDir1 (filepathBase localPath))
          | _ => (some (TransferErr.localNotFound localPath), fs1, [RemoteCall.mkdirAll remoteDir1])
      else
        match lfs.stat localPath with
        | some (LNode.dir entries) => uploadDirectory fs [] localPath remoteDir1 entries
        | _ => (some (TransferErr.readLocalDir localPath), fs, [])

/-! ## Concrete inputs -/

/-- A known-hosts file with a stale record for `hostA` on line 1. -/
def storeAB : Bytes := "hostA ssh-rsa OLD\nhostB ssh-rsa KB\n".toList

/-- The record `goph.AddKnownHost` writes for the key `hostA` presents. -/
def recordA : Bytes := "hostA ssh-rsa NEW".toList

/-- A session whose remote home is `/home/tony`. -/
def tony : Session := { echoHome := some "/home/tony\n".toList, sftpOk := true }

/-- A local tree: the directory `/tmp` holds the one regular file `a.txt`. -/
def localTmp : LocalFS :=
  { cwd := [],
    root := LNode.dir (LEntries.cons "tmp".toList
      (LNode.dir (LEntries.cons "a.txt".toList (LNode.file "hi".toList 0o600) LEntries.nil))
      LEntries.nil) }

/-- A remote file system where `/home/tony` exists and holds the plain file `notes`. -/
def remoteHome : RemoteFS :=
  { cwd := ["home".toList, "tony".toList],
    nodes := [(["home".toList], RNode.dir), (["home".toList, "tony".toList], RNode.dir),
      (["home".toList, "tony".toList, "notes".toList], RNode.file "n".toList 0o644)] }

/-- An environment in which nothing listens at any address. -/
def nothingListens : ConnEnv :=
  { dial := (fun _ => false), knownFile := some "/root/.ssh/known_hosts".toList,
    handshake := true }

/-! ## Lemmas on `deleteFileLines` -/

theorem contains_iff (slice : List Int) (value : Int) :
    contains slice value = true ↔ value ∈ slice := by
  induction slice with
  | nil => simp [contains]
  | cons item rest ih =>
    by_cases h : item = value
    · simp [contains, h]
    · have h2 : ¬ value = item := fun e => h e.symm
      simp [contains, h, h2, ih]

theorem scanLoop_eq (linesToDelete : List Int) (toks : List Bytes) :
    ∀ (pos : Nat) (keep : List Bytes),
      scanLoop linesToDelete toks (pos : Int) keep = keep ++ keptFrom linesToDelete pos toks := by
  induction toks with
  | nil => intro pos keep; simp [scanLoop, keptFrom]
  | cons text more ih =>
    intro pos keep
    have step := ih (pos + 1)
    simp only [Nat.cast_add, Nat.cast_one] at step
    by_cases h : (pos : Int) ∈ linesToDelete
    · have hc : contains linesToDelete (pos : Int) = true := (contains_iff _ _).2 h
      simp [scanLoop, keptFrom, h, hc, step]
    · have hc : contains linesToDelete (pos : Int) = false := by
        cases hv : contains linesToDelete (pos : Int) with
        | false => rfl
        | true => exact absurd ((contains_iff _ _).1 hv) h
      simp [scanLoop, keptFrom, h, hc, step]

theorem scanFrom_eq (data : Bytes) :
    ∀ cur : Bytes, scanFrom cur data = (linesFrom cur data).map dropCR := by
  induction data with
  | nil => intro cur; by_cases h : cur = [] <;> simp [scanFrom, linesFrom, h]
  | cons c rest ih =>
    intro cur
    by_cases h : c = '\n'
    · simp [scanFrom, linesFrom, h, ih]
    · simp [scanFrom, linesFrom, h, ih]

theorem keptFrom_map (selected : List Int) (f : Bytes → Bytes) (lines : List Bytes) :
    ∀ pos : Nat, keptFrom selected pos (lines.map f) = (keptFrom selected pos lines).map f := by
  induction lines with
  | nil => intro pos; simp [keptFrom]
  | cons l rest ih =>
    intro pos
    by_cases h : (pos : Int) ∈ selected <;> simp [keptFrom, h, ih]

theorem linesFrom_line (l rest : Bytes) (hl : '\n' ∉ l) :
    ∀ cur : Bytes, linesFrom cur (l ++ '\n' :: rest) = (cur ++ l) :: linesFrom [] rest := by
  induction l with
  | nil => intro cur; simp [linesFrom]
  | cons c more ih =>
    intro cur
    have hc : c ≠ '\n' := fun e => hl (by simp [e])
    have hm : '\n' ∉ more := fun e => hl (by simp [e])
    simp [linesFrom, hc, ih hm]

theorem linesFrom_last (l : Bytes) (hl : '\n' ∉ l) :
    ∀ cur : Bytes, linesFrom cur l = if cur ++ l = [] then [] else [cur ++ l] := by
  induction l with
  | nil => intro cur; simp [linesFrom]
  | cons c more ih =>
    intro cur
    have hc : c ≠ '\n' := fun e => hl (by simp [e])
    have hm : '\n' ∉ more := fun e => hl (by simp [e])
    simp [linesFrom, hc, ih hm]

/-- The scanner's tokens are the newline-delimited lines, each through `dropCR`. -/
theorem scanLines_eq (data : Bytes) : scanLines data = (fileLines data).map dropCR :=
  scanFrom_eq data []

/-- A successful `deleteFileLines` leaves the kept scanner tokens, joined. -/
theorem deleteFileLines_ok (io : Faults) (disk : Bytes) (linesToDelete : List Int)
    (after : Bytes) (h : deleteFileLines io disk linesToDelete = (none, after)) :
    after = stringsJoin (keptLines (scanLines disk) linesToDelete) ['\n'] := by
  unfold deleteFileLines at h
  have hloop := scanLoop_eq linesToDelete (scanLines disk) 1 []
  simp only [Nat.cast_one, List.nil_append] at hloop
  by_cases h1 : io.openErr = true
  · simp [h1] at h
  by_cases h2 : io.scanErr = true
  · simp [h1, h2] at h
  by_cases h3 : io.truncateErr = true
  · simp [h1, h2, h3] at h
  by_cases h4 : io.seekErr = true
  · simp [h1, h2, h3, h4] at h
  cases h5 : io.writeErr with
  | some n => simp [h1, h2, h3, h4, h5] at h
  | none =>
    simp [h1, h2, h3, h4, h5, File.truncate0, File.seekStart, File.writeString, hloop] at h
    simp [keptLines, h]

/-- With no fault, `deleteFileLines` returns no error. -/
theorem deleteFileLines_none (disk : Bytes) (linesToDelete : List Int) :
    deleteFileLines Faults.none disk linesToDelete =
      (none, stringsJoin (keptLines (scanLines disk) linesToDelete) ['\n']) := by
  have hloop := scanLoop_eq linesToDelete (scanLines disk) 1 []
  simp only [Nat.cast_one, List.nil_append] at hloop
  simp [deleteFileLines, Faults.none, File.truncate0, File.seekStart, File.writeString, hloop,
    keptLines]

/-- The three lines of a three-line file. -/
theorem fileLines_three (l1 l2 l3 disk : Bytes) (h1 : '\n' ∉ l1) (h2 : '\n' ∉ l2)
    (h3 : '\n' ∉ l3)
    (hdisk : disk = l1 ++ '\n' :: (l2 ++ '\n' :: (l3 ++ ['\n'])) ∨
      (l3 ≠ [] ∧ disk = l1 ++ '\n' :: (l2 ++ '\n' :: l3))) :
    fileLines disk = [l1, l2, l3] := by
  rcases hdisk with hd | ⟨hne, hd⟩
  · subst hd
    simp [fileLines, linesFrom_line, h1, h2, h3, linesFrom]
  · subst hd
    simp [fileLines, linesFrom_line, h1, h2, linesFrom_last l3 h3, hne]

/-! ## C1 -/

/-- C1 (as stated, refuted): on the file `a\r\nb` and the empty list
`deleteFileLines` returns no error, and the new content `a\nb` is not the
file's lines joined unchanged: line 1, `a\r`, has lost its carriage return. -/
theorem deleteFileLines_changes_crlf_line :
    deleteFileLines Faults.none ['a', '\r', '\n', 'b'] [] = (none, ['a', '\n', 'b']) ∧
    stringsJoin (keptLines (fileLines ['a', '\r', '\n', 'b']) []) ['\n'] = ['a', '\r', '\n', 'b'] ∧
    (['a', '\n', 'b'] : Bytes) ≠
      stringsJoin (keptLines (fileLines ['a', '\r', '\n', 'b']) []) ['\n'] := by
  decide

/-- C1 (amended): when `deleteFileLines` returns no error, the new content of
the file is the lines whose 1-based position is not in the list, in their
original order, each with one trailing carriage return removed if it has one
and otherwise unchanged, joined by a single newline, with nothing left of the
old content; for a file of three lines and the list `[2]` it is line 1, a
newline, line 3 (each without its trailing carriage return). -/
theorem deleteFileLines_keeps_unselected (io : Faults) (disk : Bytes)
    (linesToDelete : List Int) (after : Bytes)
    (h : deleteFileLines io disk linesToDelete = (none, after)) :
    after = stringsJoin ((keptLines (fileLines disk) linesToDelete).map dropCR) ['\n'] ∧
    ∀ l1 l2 l3 : Bytes, '\n' ∉ l1 → '\n' ∉ l2 → '\n' ∉ l3 →
      (disk = l1 ++ '\n' :: (l2 ++ '\n' :: (l3 ++ ['\n'])) ∨
        (l3 ≠ [] ∧ disk = l1 ++ '\n' :: (l2 ++ '\n' :: l3))) →
      linesToDelete = [2] → after = dropCR l1 ++ '\n' :: dropCR l3 := by
  have hmain : after =
      stringsJoin ((keptLines (fileLines disk) linesToDelete).map dropCR) ['\n'] := by
    rw [deleteFileLines_ok io disk linesToDelete after h, scanLines_eq]
    simp [keptLines, keptFrom_map]
  refine ⟨hmain, ?_⟩
  intro l1 l2 l3 h1 h2 h3 hdisk hsel
  rw [hmain, fileLines_three l1 l2 l3 disk h1 h2 h3 hdisk, hsel]
  simp [keptLines, keptFrom, stringsJoin]

/-- C1 (witness): the file `x\ny\r\nz\n` and the list `[2]`. -/
theorem deleteFileLines_keeps_unselected_witness :
    deleteFileLines Faults.none "x\ny\r\nz\n".toList [2] = (none, "x\nz".toList) ∧
    ("x\nz".toList =
        stringsJoin ((keptLines (fileLines "x\ny\r\nz\n".toList) [2]).map dropCR) ['\n'] ∧
      ∀ l1 l2 l3 : Bytes, '\n' ∉ l1 → '\n' ∉ l2 → '\n' ∉ l3 →
        ("x\ny\r\nz\n".toList = l1 ++ '\n' :: (l2 ++ '\n' :: (l3 ++ ['\n'])) ∨
          (l3 ≠ [] ∧ "x\ny\r\nz\n".toList = l1 ++ '\n' :: (l2 ++ '\n' :: l3))) →
        ([2] : List Int) = [2] → "x\nz".toList = dropCR l1 ++ '\n' :: dropCR l3) :=
  ⟨by decide,
    deleteFileLines_keeps_unselected Faults.none "x\ny\r\nz\n".toList [2] "x\nz".toList
      (by decide)⟩


/-! ## Lemmas on the callback -/

theorem wantLines_eq (want : List KnownKey) :
    ∀ lines : List Int, wantLines want lines = lines ++ want.map KnownKey.line := by
  induction want with
  | nil => intro lines; simp [wantLines]
  | cons w more ih => intro lines; simp [wantLines, ih]

/-- A key mismatch with stale lines: when the deletion succeeds, the callback
returns `nil` right after it, and `goph.AddKnownHost` is not called. -/
theorem callback_keyError (io : Faults) (want : List KnownKey) (record store after : Bytes)
    (hwant : want ≠ [])
    (hdel : deleteFileLines io store (want.map KnownKey.line) = (none, after)) :
    callback io true (some (Error.keyError want)) record store =
      (Outcome.returned none, after, [StoreOp.deleteLines (want.map KnownKey.line)]) := by
  have hlen : want.length ≠ 0 := by
    intro h0
    exact hwant (List.length_eq_zero.mp h0)
  simp [callback, repairBlock, errorsAs, findKeyError, hlen, wantLines_eq, hdel]

/-- A lookup error that is not a key mismatch, with the host reported found:
`errors.As` is called with the nil pointer `revokedErr` and panics. -/
theorem callback_found_other (io : Faults) (e : Error) (record store : Bytes)
    (hkey : findKeyError e = none) :
    callback io true (some e) record store = (Outcome.panicked, store, []) := by
  simp [callback, repairBlock, errorsAs, hkey]

/-- With the host reported not found the callback goes straight to
`goph.AddKnownHost`, whatever the error of the check. -/
theorem callback_notFound (io : Faults) (err : Option Error) (record store : Bytes) :
    callback io false err record store =
      if io.addErr then
        (Outcome.returned (some (Error.withStack Error.addFailed)), store,
          [StoreOp.addHost record])
      else (Outcome.returned none, store ++ record ++ ['\n'], [StoreOp.addHost record]) := by
  cases err <;> by_cases h : io.addErr = true <;>
    simp [callback, repairBlock, addKnownHost, h]

/-! ## C2 -/

/-- C2 (the code at the failing input): the check reports `hostA` found with a
key mismatch and the stale line 1.  The callback deletes line 1 and accepts,
but it never calls `goph.AddKnownHost`: the store holds the record of `hostB`
only (without its newline) and no record for the new key. -/
theorem callback_conflict_appends_nothing :
    callback Faults.none true (some (Error.keyError [{ line := 1 }])) recordA storeAB =
      (Outcome.returned none, "hostB ssh-rsa KB".toList, [StoreOp.deleteLines [1]]) ∧
    fileLines "hostB ssh-rsa KB".toList ≠
      keptLines (fileLines storeAB) [1] ++ [recordA] := by
  decide

/-! ## C3 -/

/-- The lines of a text that continues after a newline. -/
theorem linesFrom_append (a rest : Bytes) :
    ∀ cur : Bytes,
      linesFrom cur (a ++ '\n' :: rest) = linesFrom cur (a ++ ['\n']) ++ linesFrom [] rest := by
  induction a with
  | nil => intro cur; simp [linesFrom]
  | cons c more ih =>
    intro cur
    by_cases h : c = '\n'
    · simp [linesFrom, h, ih]
    · simp [linesFrom, h, ih]

/-- Appending a record and a newline to a store that is empty or ends with a
newline adds the record as one new last line and keeps every former line. -/
theorem fileLines_append_record (store record : Bytes) (hrec : '\n' ∉ record)
    (hterm : store = [] ∨ ∃ q, store = q ++ ['\n']) :
    fileLines (store ++ record ++ ['\n']) = fileLines store ++ [record] := by
  have hone : linesFrom [] (record ++ ['\n']) = [record] := by
    have := linesFrom_line record [] hrec []
    simpa [linesFrom] using this
  rcases hterm with h0 | ⟨q, hq⟩
  · subst h0
    simpa [fileLines] using hone
  · subst hq
    have := linesFrom_append q (record ++ ['\n']) []
    simp only [fileLines, List.append_assoc, List.singleton_append, List.cons_append,
      List.nil_append]
    rw [this, hone]

/-- C3 (as stated, refuted): on the store `hostB ssh-rsa KB`, whose last line
has no newline (what `deleteFileLines` leaves behind), the check reports the
host as not found and the append succeeds; the callback accepts, but the store
has one line before and one line after: the record is glued onto the line of
`hostB`, which is altered, and no line holds the new record. -/
theorem callback_unknown_host_glues_record :
    callback Faults.none false none recordA "hostB ssh-rsa KB".toList =
      (Outcome.returned none, "hostB ssh-rsa KBhostA ssh-rsa NEW\n".toList,
        [StoreOp.addHost recordA]) ∧
    fileLines "hostB ssh-rsa KB".toList = ["hostB ssh-rsa KB".toList] ∧
    fileLines "hostB ssh-rsa KBhostA ssh-rsa NEW\n".toList =
      ["hostB ssh-rsa KBhostA ssh-rsa NEW".toList] ∧
    fileLines "hostB ssh-rsa KBhostA ssh-rsa NEW\n".toList ≠
      fileLines "hostB ssh-rsa KB".toList ++ [recordA] := by
  decide

/-- C3 (amended): when the check reports the host as not found, the callback
makes exactly one call that changes the store, the append of the new record,
and deletes no line; when the append succeeds it returns `nil` and the store
is the old content followed by the record and a newline; and when the store is
empty or ends with a newline (and the record holds no newline), the lines of
the store afterwards are its former lines, unchanged and in order, followed by
the new record as one new last line. -/
theorem callback_unknown_host_enrolls (io : Faults) (err : Option Error)
    (record store : Bytes) :
    (callback io false err record store).2.2 = [StoreOp.addHost record] ∧
    callback io false err record store =
      (if io.addErr then
        (Outcome.returned (some (Error.withStack Error.addFailed)), store,
          [StoreOp.addHost record])
      else (Outcome.returned none, store ++ record ++ ['\n'], [StoreOp.addHost record])) ∧
    (io.addErr = false → '\n' ∉ record → (store = [] ∨ ∃ q, store = q ++ ['\n']) →
      (callback io false err record store).1 = Outcome.returned none ∧
      fileLines (callback io false err record store).2.1 = fileLines store ++ [record]) := by
  refine ⟨?_, callback_notFound io err record store, ?_⟩
  · rw [callback_notFound]
    by_cases h : io.addErr = true <;> simp [h]
  · intro hadd hrec hterm
    have hcb := callback_notFound io err record store
    simp only [hadd, Bool.false_eq_true, if_false] at hcb
    rw [hcb]
    exact ⟨rfl, fileLines_append_record store record hrec hterm⟩

/-- C3 (witness): the store `storeAB`, which ends with a newline, and the
record `recordA`. -/
theorem callback_unknown_host_enrolls_witness :
    (Faults.none.addErr = false ∧ '\n' ∉ recordA ∧
      (storeAB = [] ∨ ∃ q, storeAB = q ++ ['\n'])) ∧
    (callback Faults.none false none recordA storeAB).1 = Outcome.returned none ∧
    fileLines (callback Faults.none false none recordA storeAB).2.1 =
      fileLines storeAB ++ [recordA] :=
  ⟨⟨rfl, by decide, Or.inr ⟨"hostA ssh-rsa OLD\nhostB ssh-rsa KB".toList, by decide⟩⟩,
    (callback_unknown_host_enrolls Faults.none none recordA storeAB).2.2 rfl (by decide)
      (Or.inr ⟨"hostA ssh-rsa OLD\nhostB ssh-rsa KB".toList, by decide⟩)⟩

/-! ## C4 -/

/-- C4: when the check reports an exact match (host found, no error), the
callback returns `nil`, the store is unchanged, and neither `deleteFileLines`
nor `goph.AddKnownHost` is called. -/
theorem callback_trusted_no_mutation (io : Faults) (record store : Bytes) :
    callback io true none record store = (Outcome.returned none, store, []) := by
  simp [callback, repairBlock]

/-! ## C5 -/

/-- C5 (the code at the failing input): for a lookup error that is neither a
key mismatch nor a revocation, reported with the host not found, the callback
appends the new record and returns `nil`; reported with the host found, it
panics in `errors.As` before it reaches its `return` of the error. -/
theorem callback_lookup_failure_accepts :
    callback Faults.none false (some Error.lookupFailed) recordA storeAB =
      (Outcome.returned none, storeAB ++ recordA ++ ['\n'], [StoreOp.addHost recordA]) ∧
    callback Faults.none true (some Error.lookupFailed) recordA storeAB =
      (Outcome.panicked, storeAB, []) := by
  decide

/-! ## C6 -/

/-- C6 (the code at the failing input): for a revocation error naming line 1,
reported with the host found, the callback panics in `errors.As` (the target
is the nil pointer `revokedErr`): no line is deleted and no record appended;
reported with the host not found, it appends the record and deletes nothing. -/
theorem callback_revoked_deletes_nothing :
    callback Faults.none true (some (Error.revokedError { line := 1 })) recordA storeAB =
      (Outcome.panicked, storeAB, []) ∧
    callback Faults.none false (some (Error.revokedError { line := 1 })) recordA storeAB =
      (Outcome.returned none, storeAB ++ recordA ++ ['\n'], [StoreOp.addHost recordA]) := by
  decide


/-! ## Lemmas on path names -/

theorem stringsHasSuffix_iff (s suffix : Bytes) :
    stringsHasSuffix s suffix = true ↔ ∃ q, s = q ++ suffix := by
  constructor
  · intro h
    simp only [stringsHasSuffix, Bool.and_eq_true, decide_eq_true_eq, beq_iff_eq] at h
    refine ⟨s.take (s.length - suffix.length), ?_⟩
    conv_lhs => rw [← List.take_append_drop (s.length - suffix.length) s]
    rw [h.2]
  · rintro ⟨q, rfl⟩
    simp [stringsHasSuffix]

theorem stringsTrimSuffix_append (q suffix : Bytes) :
    stringsTrimSuffix (q ++ suffix) suffix = q := by
  have h : stringsHasSuffix (q ++ suffix) suffix = true :=
    (stringsHasSuffix_iff _ _).2 ⟨q, rfl⟩
  simp [stringsTrimSuffix, h]

/-! ## C7 -/

/-- C7 (the code at the failing input): the local directory `/tmp` holds one
regular file and the remote destination `/home/tony/tmp` does not exist yet
(its parent does).  `Upload` returns the error of `sftpClient.Create`: the
destination directory is never made, and nothing is on the remote side
afterwards.  Uploading the single file `/tmp/a.txt` to the same destination
makes the directory first and succeeds. -/
theorem Upload_directory_into_missing_destination :
    pathExists remoteHome "/home/tony/tmp".toList = false ∧
    Upload tony localTmp remoteHome "/tmp".toList "/home/tony/tmp".toList =
      (some (TransferErr.uploadFile "/tmp/a.txt".toList
          (TransferErr.createRemote "/home/tony/tmp/a.txt".toList)),
        remoteHome, [RemoteCall.create "/home/tony/tmp/a.txt".toList]) ∧
    (Upload tony localTmp remoteHome "/tmp/a.txt".toList "/home/tony/tmp".toList).1 = none := by
  decide

/-! ## C8 -/

/-- C8: when the local path exists and the remote destination, trimmed and
with its tilde expanded, is a plain file on the remote side, `Upload` returns
an error, leaves the remote file system as it was and makes no writing call
(no `MkdirAll`, `Create`, `Chmod` or copy); once the sftp client is open the
error is the one that names that remote path. -/
theorem Upload_onto_remote_file_rejected (s : Session) (lfs : LocalFS) (fs : RemoteFS)
    (localPath remoteDir expanded : Bytes)
    (hlocal : fsutilPathExists lfs localPath = true)
    (hexpand : expandTilde s (trimRemote remoteDir) = (expanded, none))
    (hfile : isFile fs expanded = true) :
    (∃ err, Upload s lfs fs localPath remoteDir = (some err, fs, [])) ∧
    (s.sftpOk = true →
      Upload s lfs fs localPath remoteDir = (some (TransferErr.remoteIsFile expanded), fs, [])) := by
  by_cases hs : s.sftpOk = true
  · have h : Upload s lfs fs localPath remoteDir =
        (some (TransferErr.remoteIsFile expanded), fs, []) := by
      simp [Upload, hlocal, hexpand, hs, hfile]
    exact ⟨⟨_, h⟩, fun _ => h⟩
  · have h : Upload s lfs fs localPath remoteDir = (some TransferErr.sftpClient, fs, []) := by
      simp [Upload, hlocal, hexpand, hs]
    exact ⟨⟨_, h⟩, fun hs2 => absurd hs2 hs⟩

/-- C8 (witness): uploading `/tmp` to `~/notes/`, where `/home/tony/notes` is a plain file. -/
theorem Upload_onto_remote_file_rejected_witness :
    (fsutilPathExists localTmp "/tmp".toList = true ∧
      expandTilde tony (trimRemote "~/notes/".toList) = ("/home/tony/notes".toList, none) ∧
      isFile remoteHome "/home/tony/notes".toList = true) ∧
    ((∃ err, Upload tony localTmp remoteHome "/tmp".toList "~/notes/".toList =
        (some err, remoteHome, [])) ∧
      (tony.sftpOk = true →
        Upload tony localTmp remoteHome "/tmp".toList "~/notes/".toList =
          (some (TransferErr.remoteIsFile "/home/tony/notes".toList), remoteHome, []))) :=
  ⟨by decide,
    Upload_onto_remote_file_rejected tony localTmp remoteHome "/tmp".toList "~/notes/".toList
      "/home/tony/notes".toList (by decide) (by decide) (by decide)⟩

/-! ## C9 -/

/-- C9 (as stated, refuted): for the remote path `a//` the trimming step gives
`a/`, which still ends with the separator. -/
theorem trimRemote_keeps_a_slash :
    trimRemote ['a', '/', '/'] = ['a', '/'] ∧
    stringsHasSuffix (trimRemote ['a', '/', '/']) ['/'] = true := by
  decide

/-- C9 (amended): the trimming step of `Upload` and `Download` removes exactly
one trailing separator when the remote path has one and leaves every other
path as it is; so its result ends with the separator exactly when the path
passed ends with two of them. -/
theorem trimRemote_removes_one_slash (remotePath : Bytes) :
    (∀ q, remotePath = q ++ ['/'] → trimRemote remotePath = q) ∧
    (stringsHasSuffix remotePath ['/'] = false → trimRemote remotePath = remotePath) ∧
    (stringsHasSuffix (trimRemote remotePath) ['/'] = true ↔
      stringsHasSuffix remotePath ['/', '/'] = true) := by
  refine ⟨?_, ?_, ?_⟩
  · rintro q rfl
    exact stringsTrimSuffix_append q ['/']
  · intro h
    simp [trimRemote, stringsTrimSuffix, h]
  · constructor
    · intro h
      cases hp : stringsHasSuffix remotePath ['/'] with
      | false =>
        have hsame : trimRemote remotePath = remotePath := by
          simp [trimRemote, stringsTrimSuffix, hp]
        rw [hsame, hp] at h
        exact absurd h (by simp)
      | true =>
        obtain ⟨q, rfl⟩ := (stringsHasSuffix_iff _ _).1 hp
        have hq : trimRemote (q ++ ['/']) = q := stringsTrimSuffix_append q ['/']
        rw [hq] at h
        obtain ⟨r, rfl⟩ := (stringsHasSuffix_iff _ _).1 h
        exact (stringsHasSuffix_iff _ _).2 ⟨r, by simp⟩
    · intro h
      obtain ⟨r, rfl⟩ := (stringsHasSuffix_iff _ _).1 h
      have hr : trimRemote (r ++ ['/', '/']) = r ++ ['/'] := by
        have := stringsTrimSuffix_append (r ++ ['/']) ['/']
        simpa [trimRemote] using this
      rw [hr]
      exact (stringsHasSuffix_iff _ _).2 ⟨r, rfl⟩

/-! ## C10 -/

/-- C10: when the reachability probe of the address fails, `Connect` returns
an error and no session, and the probe is the only step started: neither
`getKnownFile` nor `goph.NewConn`, with its host-key callback, is reached. -/
theorem Connect_unreachable_stops_at_probe (env : ConnEnv) (host : Bytes) (port : Nat)
    (username password : Bytes)
    (hdial : env.dial (formatAddress host (if port = 0 then 22 else port)) = false) :
    Connect env host port username password =
      (none,
        some (ConnErr.withStack (ConnErr.withStack
          (ConnErr.unreachable (formatAddress host (if port = 0 then 22 else port))))),
        [ConnStep.probe (formatAddress host (if port = 0 then 22 else port))]) := by
  simp [Connect, connect, isReachableAddr, hdial]

/-- C10 (witness): nothing listens at `example:22`. -/
theorem Connect_unreachable_stops_at_probe_witness :
    nothingListens.dial (formatAddress "example".toList (if 0 = 0 then 22 else 0)) = false ∧
    Connect nothingListens "example".toList 0 "tony".toList "pw".toList =
      (none,
        some (ConnErr.withStack (ConnErr.withStack
          (ConnErr.unreachable (formatAddress "example".toList (if 0 = 0 then 22 else 0))))),
        [ConnStep.probe (formatAddress "example".toList (if 0 = 0 then 22 else 0))]) :=
  ⟨rfl,
    Connect_unreachable_stops_at_probe nothingListens "example".toList 0 "tony".toList
      "pw".toList rfl⟩

end Gossh
